import Mathlib

/-!
# Verification of the BRFSS Type-2-Diabetes analyzer

A shallow embedding of the client (`src/frontend/src/App.tsx`) and of the
statistical pipeline contract (weighted aggregator, recoder, regression
output shape).  The client's state, the form data each handler builds, and
the sequence of state updates each handler performs are modelled explicitly;
request/response outcomes (success or a thrown exception during fetch or
decoding) are passed in as parameters so every execution path of the
`try`/`finally` blocks is covered.
-/

namespace BrfssApp

/-- A value appended to a `FormData` object: the uploaded file (modelled by
an opaque name) or a text field. -/
inductive FormValue where
  | file (name : String)
  | text (s : String)
  deriving DecidableEq, Repr

/-- A multipart form body: the entries in the order they were appended. -/
abbrev FormData := List (String × FormValue)

/-- One HTTP request issued by the client: target path and form body. -/
structure Request where
  endpoint : String
  body : FormData
  deriving DecidableEq, Repr

/-- `type PrevRow = { group: string; prev: number }` (App.tsx line 5).
Numbers are modelled as rationals. -/
structure PrevRow where
  group : String
  prev : ℚ
  deriving DecidableEq, Repr

/-- `type ORRow = { term: string; OR: number; OR_low: number;
OR_high: number; ['P>|z|']: number }` (App.tsx line 6).  The field
`P>|z|` is not a legal Lean identifier and is rendered as `pz`. -/
structure ORRow where
  term : String
  OR : ℚ
  OR_low : ℚ
  OR_high : ℚ
  pz : ℚ
  deriving DecidableEq, Repr

/-- The `table` field of the `/logit` JSON response as the client sees it:
absent (`undefined`), explicit `null`, or an array of rows. -/
inductive TableField where
  | absent
  | null
  | rows (l : List ORRow)
  deriving DecidableEq, Repr

/-- JavaScript `data.table || null`: a missing or `null` field collapses to
`null`; an array (even an empty one) is truthy and kept. -/
def TableField.orNull : TableField → Option (List ORRow)
  | .absent => none
  | .null => none
  | .rows l => some l

/-- Outcome of an awaited step (fetch + decoding): a value, or a thrown
exception that propagates to the enclosing `finally`. -/
inductive Outcome (α : Type) where
  | ok (a : α)
  | thrown
  deriving DecidableEq, Repr

/-- The React component state of `App` (App.tsx lines 9–16).  The state
variable `by` is a Lean keyword and is rendered as `byVal`. -/
structure ClientState where
  file : Option String
  byVal : String
  covars : String
  weightCol : String
  prevRows : Option (List PrevRow)
  orRows : Option (List ORRow)
  plotUrl : String
  busy : Bool
  deriving DecidableEq, Repr

/-- The `useState` initial values: no file, empty `by` and covariates,
weight column `_LLCPWT`, no results, not busy (App.tsx lines 9–16). -/
def initialState : ClientState :=
  { file := none, byVal := "", covars := "", weightCol := "_LLCPWT",
    prevRows := none, orRows := none, plotUrl := "", busy := false }

/-- `if (v) fd.append(k, v)`: a string field is appended iff it is truthy,
i.e. non-empty. -/
def appendIf (k v : String) : FormData :=
  if v = "" then [] else [(k, FormValue.text v)]

/-- Form data built by `runPrev` for `/prevalence` (App.tsx lines 24–27):
the file, then `by` and `weight_col` when non-empty. -/
def prevFormData (f byVal weightCol : String) : FormData :=
  ("file", FormValue.file f) :: (appendIf "by" byVal ++ appendIf "weight_col" weightCol)

/-- Form data built by `runPrev` for `/plot/prevalence` (App.tsx lines
32–35): same appends as the prevalence body. -/
def plotFormData (f byVal weightCol : String) : FormData :=
  ("file", FormValue.file f) :: (appendIf "by" byVal ++ appendIf "weight_col" weightCol)

/-- Form data built by `runLogit` for `/logit` (App.tsx lines 48–51):
the file, then `covars_csv` and `weight_col` when non-empty. -/
def logitFormData (f covars weightCol : String) : FormData :=
  ("file", FormValue.file f) :: (appendIf "covars_csv" covars ++ appendIf "weight_col" weightCol)

/-- Form data built by `runRecode` for `/recode` (App.tsx lines 64–66):
the file, then `weight_col` when non-empty. -/
def recodeFormData (f weightCol : String) : FormData :=
  ("file", FormValue.file f) :: appendIf "weight_col" weightCol

/-- The observable effect of one handler invocation: the successive client
states after each `set*` call, in order, and the requests issued. -/
structure StepResult where
  states : List ClientState
  requests : List Request
  deriving DecidableEq, Repr

/-- The state after a handler finished: the last recorded state, or the
original state when the handler returned before any update. -/
def finalState (s : ClientState) (r : StepResult) : ClientState :=
  r.states.getLastD s

/-- `runPrev` (App.tsx lines 20–42): return early without a file; else set
`busy`, POST `/prevalence`, store the decoded rows, POST `/plot/prevalence`,
store the blob URL; `finally` clears `busy` on every path.
`prevResp` is the outcome of the prevalence fetch + `res.json()`,
`plotResp` the outcome of the plot fetch + blob/URL creation (the created
object URL is passed as its payload). -/
def runPrev (s : ClientState) (prevResp : Outcome (List PrevRow))
    (plotResp : Outcome String) : StepResult :=
  match s.file with
  | none => ⟨[], []⟩
  | some f =>
    let s1 := { s with busy := true }
    let req1 : Request := ⟨"/prevalence", prevFormData f s.byVal s.weightCol⟩
    match prevResp with
    | .thrown => ⟨[s1, { s1 with busy := false }], [req1]⟩
    | .ok rows =>
      let s2 := { s1 with prevRows := some rows }
      let req2 : Request := ⟨"/plot/prevalence", plotFormData f s.byVal s.weightCol⟩
      match plotResp with
      | .thrown => ⟨[s1, s2, { s2 with busy := false }], [req1, req2]⟩
      | .ok url =>
        let s3 := { s2 with plotUrl := url }
        ⟨[s1, s2, s3, { s3 with busy := false }], [req1, req2]⟩

/-- `runLogit` (App.tsx lines 44–58): return early without a file; else set
`busy`, POST `/logit`, store `data.table || null`; `finally` clears `busy`. -/
def runLogit (s : ClientState) (resp : Outcome TableField) : StepResult :=
  match s.file with
  | none => ⟨[], []⟩
  | some f =>
    let s1 := { s with busy := true }
    let req : Request := ⟨"/logit", logitFormData f s.covars s.weightCol⟩
    match resp with
    | .thrown => ⟨[s1, { s1 with busy := false }], [req]⟩
    | .ok tbl =>
      let s2 := { s1 with orRows := tbl.orNull }
      ⟨[s1, s2, { s2 with busy := false }], [req]⟩

/-- `runRecode` (App.tsx lines 60–74): return early without a file; else set
`busy`, POST `/recode`, show an alert (no state change); `finally` clears
`busy`.  The response outcome only decides whether the alert is reached. -/
def runRecode (s : ClientState) (resp : Outcome (List (String × ℚ))) : StepResult :=
  match s.file with
  | none => ⟨[], []⟩
  | some f =>
    let s1 := { s with busy := true }
    let req : Request := ⟨"/recode", recodeFormData f s.weightCol⟩
    match resp with
    | .thrown => ⟨[s1, { s1 with busy := false }], [req]⟩
    | .ok _ => ⟨[s1, { s1 with busy := false }], [req]⟩

/-! ## Weighted aggregator

The backend implementation is not part of the repository snapshot (only the
frontend and the backend README are); the aggregator below is modelled from
the spec. -/

/-- One respondent row as the aggregator sees it: the recoded binary
outcome (`none` = missing), the resolved row weight, and the value of the
grouping column (`none` = missing). -/
structure DataRow where
  outcome : Option ℚ
  weight : ℚ
  group : Option String
  deriving DecidableEq, Repr

/-- Modelled from the spec (§4.2): a row enters the computation for group
level `g` iff its outcome is not missing and (group is `g`, or ungrouped,
`g = none`).  Rows with a missing grouping value are excluded in grouped
mode. -/
def rowIncluded (g : Option String) (r : DataRow) : Bool :=
  r.outcome.isSome && (match g with
    | none => true
    | some gv => r.group == some gv)

/-- Modelled from the spec (§4.2): a single pass over the dataset
accumulating the weighted outcome sum and the weight sum over included
rows. -/
def prevAccum (ds : List DataRow) (g : Option String) : ℚ × ℚ :=
  ds.foldl
    (fun acc r =>
      if rowIncluded g r then (acc.1 + r.weight * r.outcome.getD 0, acc.2 + r.weight)
      else acc)
    (0, 0)

/-- Σ(weight·outcome) over the rows included for group `g`. -/
def weightedNum (ds : List DataRow) (g : Option String) : ℚ :=
  ((ds.filter (rowIncluded g)).map (fun r => r.weight * r.outcome.getD 0)).sum

/-- Σ(weight) over the rows included for group `g`. -/
def weightedDen (ds : List DataRow) (g : Option String) : ℚ :=
  ((ds.filter (rowIncluded g)).map (fun r => r.weight)).sum

/-- Modelled from the spec (§4.2): the weighted prevalence for group `g`;
a zero weighted denominator is detected and yields no value rather than
NaN or Infinity. -/
def prevalence (ds : List DataRow) (g : Option String) : Option ℚ :=
  let acc := prevAccum ds g
  if acc.2 = 0 then none else some (acc.1 / acc.2)

/-- The distinct non-missing grouping values in first-seen order. -/
def observedLevels (ds : List DataRow) : List String :=
  ds.foldl
    (fun acc r =>
      match r.group with
      | none => acc
      | some g => if g ∈ acc then acc else acc ++ [g])
    []

/-- Modelled from the spec (§4.2, §6): the prevalence output — when
grouped, one `{group, prev}` pair per observed level in first-seen order,
levels with a zero weighted denominator omitted; ungrouped, a single row
labelled `overall` (absent when the total weighted denominator is zero). -/
def prevalenceTable (ds : List DataRow) (grouped : Bool) : List PrevRow :=
  if grouped then
    (observedLevels ds).filterMap
      (fun g => (prevalence ds (some g)).map (fun p => ⟨g, p⟩))
  else
    (prevalence ds none).toList.map (fun p => ⟨"overall", p⟩)

/-- The accumulator pass computes exactly the two sums, from any start. -/
theorem prevAccum_eq_sums (ds : List DataRow) (g : Option String) :
    prevAccum ds g = (weightedNum ds g, weightedDen ds g) := by
  suffices h : ∀ a b : ℚ,
      ds.foldl
        (fun acc r =>
          if rowIncluded g r then (acc.1 + r.weight * r.outcome.getD 0, acc.2 + r.weight)
          else acc)
        (a, b) = (a + weightedNum ds g, b + weightedDen ds g) by
    simpa using h 0 0
  induction ds with
  | nil => intro a b; simp [weightedNum, weightedDen]
  | cons r rs ih =>
    intro a b
    by_cases hr : rowIncluded g r
    · simp only [List.foldl_cons, hr, if_pos, weightedNum, weightedDen,
        List.filter_cons, List.map_cons, List.sum_cons]
      rw [ih]
      simp only [Prod.mk.injEq]
      constructor <;> simp only [weightedNum, weightedDen] <;> ring
    · simp only [List.foldl_cons, hr, if_neg, weightedNum, weightedDen,
        List.filter_cons, List.map_cons, List.sum_cons]
      simp only [hr, Bool.false_eq_true, if_neg, not_false_iff]
      rw [ih]
      simp [weightedNum, weightedDen]

/-- The 4-row end-to-end dataset of §8: outcomes `[1,0,1,0]`,
weights `[2,1,1,2]`, no grouping column. -/
def exampleDS : List DataRow :=
  [⟨some 1, 2, none⟩, ⟨some 0, 1, none⟩, ⟨some 1, 1, none⟩, ⟨some 0, 2, none⟩]

/-! ## Recoder

Also modelled from the spec (§4.1): the backend recoding code is not in the
repository snapshot.  A recode rule reads one source column and writes one
derived column through a fixed total mapping; out-of-domain codes resolve to
the missing/unknown sentinel. -/

/-- A cell value: a numeric survey code / measurement, a categorical label,
or missing. -/
inductive Value where
  | num (q : ℚ)
  | str (s : String)
  | missing
  deriving DecidableEq, Repr

/-- A dataset row, as a total assignment of values to column names
(columns not present hold `missing`). -/
abbrev Row := String → Value

/-- Modelled from the spec (§3): one recode rule — source column, derived
column, and a total code→value mapping with a missing sentinel. -/
structure RecodeRule where
  src : String
  dst : String
  map : Value → Value

/-- Applying one rule overwrites the derived column with the mapped value
of the source column and leaves every other column unchanged. -/
def applyRule (row : Row) (rule : RecodeRule) : Row :=
  fun c => if c = rule.dst then rule.map (row rule.src) else row c

/-- Modelled from the spec (§4.1): the Recoder applies its fixed rule table
in order, producing a derived row; original columns are preserved unless
explicitly overwritten. -/
def recode (rules : List RecodeRule) (row : Row) : Row :=
  rules.foldl applyRule row

/-- The last rule of the table writing column `c`, if any (later rules
overwrite earlier ones). -/
def lastRuleFor (rules : List RecodeRule) (c : String) : Option RecodeRule :=
  (rules.filter (fun r => r.dst = c)).getLast?

/-- `DIABETE4 → diabetes_cat`: 1 = diabetes, 2/3 = no diabetes,
4 = pre-diabetes, anything else = missing sentinel. -/
def diabetesCatMap (v : Value) : Value :=
  match v with
  | .num q =>
    if q = 1 then .str "diabetes"
    else if q = 2 then .str "no diabetes"
    else if q = 3 then .str "no diabetes"
    else if q = 4 then .str "pre-diabetes"
    else .str "missing"
  | _ => .str "missing"

/-- `DIABETE4 → t2d_binary`: 1 → 1; 2, 3, 4 → 0; anything else missing. -/
def t2dBinaryMap (v : Value) : Value :=
  match v with
  | .num q =>
    if q = 1 then .num 1
    else if q = 2 then .num 0
    else if q = 3 then .num 0
    else if q = 4 then .num 0
    else .missing
  | _ => .missing

/-- `_BMI5 → BMI`: the stored code is BMI·100; invalid input is missing. -/
def bmiMap (v : Value) : Value :=
  match v with
  | .num q => .num (q / 100)
  | _ => .missing

/-- Fixed BMI bins, each closed on the left and open on the right. -/
def bmiCat (b : ℚ) : String :=
  if b < 37 / 2 then "underweight"
  else if b < 25 then "normal"
  else if b < 30 then "overweight"
  else "obese"

/-- `_BMI5 → BMI_cat`: the fixed-bin categorical field, with an `unknown`
bin for missing/invalid input. -/
def bmiCatMap (v : Value) : Value :=
  match v with
  | .num q => .str (bmiCat (q / 100))
  | _ => .str "unknown"

/-- `_AGEG5YR → age_group`: the 13 five-year codes collapsed into ordered
bins; code 14 (and anything out of range) is missing. -/
def ageGroupMap (v : Value) : Value :=
  match v with
  | .num q =>
    if q < 1 then .str "missing"
    else if q ≤ 3 then .str "18-34"
    else if q ≤ 6 then .str "35-49"
    else if q ≤ 9 then .str "50-64"
    else if q ≤ 13 then .str "65+"
    else .str "missing"
  | _ => .str "missing"

/-- `SEXVAR → sex`: fixed 2-level mapping plus missing. -/
def sexMap (v : Value) : Value :=
  match v with
  | .num q =>
    if q = 1 then .str "Male"
    else if q = 2 then .str "Female"
    else .str "missing"
  | _ => .str "missing"

/-- Modelled from the spec (§4.1, README): the fixed BRFSS 2023 rule table
producing `diabetes_cat`, `t2d_binary`, `BMI`, `BMI_cat`, `age_group`,
`sex`. -/
def brfssRules : List RecodeRule :=
  [⟨"DIABETE4", "diabetes_cat", diabetesCatMap⟩,
   ⟨"DIABETE4", "t2d_binary", t2dBinaryMap⟩,
   ⟨"_BMI5", "BMI", bmiMap⟩,
   ⟨"_BMI5", "BMI_cat", bmiCatMap⟩,
   ⟨"_AGEG5YR", "age_group", ageGroupMap⟩,
   ⟨"SEXVAR", "sex", sexMap⟩]

/-- A concrete respondent row used to instantiate the recoder theorems. -/
def sampleRow : Row := fun c =>
  if c = "DIABETE4" then .num 1
  else if c = "_BMI5" then .num 2850
  else if c = "_AGEG5YR" then .num 9
  else if c = "SEXVAR" then .num 2
  else if c = "_LLCPWT" then .num (3 / 2)
  else .missing

/-- Recoding leaves a column untouched when no rule writes it. -/
theorem recode_apply_of_not_dst (rules : List RecodeRule) (row : Row) (c : String)
    (hc : ∀ r ∈ rules, r.dst ≠ c) : recode rules row c = row c := by
  induction rules generalizing row with
  | nil => rfl
  | cons r rs ih =>
    have hr : r.dst ≠ c := hc r (List.mem_cons_self r rs)
    have hrec : recode rs (applyRule row r) c = applyRule row r c :=
      ih (applyRule row r) (fun r' hr' => hc r' (List.mem_cons_of_mem r hr'))
    calc recode (r :: rs) row c = recode rs (applyRule row r) c := rfl
      _ = applyRule row r c := hrec
      _ = row c := by
          have hcd : c ≠ r.dst := fun hh => hr hh.symm
          simp [applyRule, hcd]

/-- Pointwise characterization of `recode` when no derived column is read
as a source: a column written by some rule holds the last such rule's map
of the original source value; any other column is unchanged. -/
theorem recode_apply_eq (rules : List RecodeRule)
    (h : ∀ r ∈ rules, ∀ r' ∈ rules, r.dst ≠ r'.src) (row : Row) (c : String) :
    recode rules row c =
      match lastRuleFor rules c with
      | none => row c
      | some r => r.map (row r.src) := by
  induction rules using List.reverseRecOn with
  | nil => rfl
  | append_singleton rs r ih =>
    have hrs : ∀ a ∈ rs, ∀ b ∈ rs, a.dst ≠ b.src := fun a ha b hb =>
      h a (List.mem_append_left _ ha) b (List.mem_append_left _ hb)
    have hconcat : recode (rs ++ [r]) row c = applyRule (recode rs row) r c := by
      simp [recode, List.foldl_append]
    rw [hconcat]
    by_cases hdst : c = r.dst
    · have hsrc : recode rs row r.src = row r.src :=
        recode_apply_of_not_dst rs row r.src
          (fun a ha => h a (List.mem_append_left _ ha) r
            (List.mem_append_right _ (List.mem_singleton_self r)))
      have hlast : lastRuleFor (rs ++ [r]) c = some r := by
        subst hdst
        simp [lastRuleFor, List.filter_append]
      rw [hlast]
      simp [applyRule, hdst, hsrc]
    · have hlast : lastRuleFor (rs ++ [r]) c = lastRuleFor rs c := by
        have : r.dst ≠ c := fun hh => hdst hh.symm
        simp [lastRuleFor, List.filter_append, this]
      rw [hlast, ← ih hrs]
      simp [applyRule, hdst]

/-! ## Weighted regression output shape

Modelled from the spec (§4.3, §6): the estimator's numeric core (MLE of the
logistic model) lives in the missing backend; what the claims need is the
shape of its output — one `{term, OR, CI, p}` row per fitted coefficient,
intercept first.  The real-valued functions `exp` and the Wald p-value map
are abstracted as parameters. -/

/-- One fitted coefficient: term name, log-odds estimate, standard error. -/
structure FitCoef where
  term : String
  beta : ℚ
  se : ℚ
  deriving DecidableEq, Repr

/-- Modelled from the spec (§4.3): the model terms — the intercept
(`const`) followed by the covariate terms in order. -/
def glmTerms (covarTerms : List String) : List String :=
  "const" :: covarTerms

/-- Modelled from the spec (§4.3): a fit assigns an estimate and a
standard error to every model term, intercept included. -/
def glmFit (covarTerms : List String) (beta se : String → ℚ) : List FitCoef :=
  (glmTerms covarTerms).map (fun t => ⟨t, beta t, se t⟩)

/-- Modelled from the spec (§4.3): one output row per coefficient —
`OR = exp β`, `CI = exp (β ± 1.96·SE)`, p-value from the Wald statistic
`β/SE`; `conv` stands for `exp` and `pv` for `z ↦ 2·Φ(−|z|)`. -/
def orRow (conv pv : ℚ → ℚ) (c : FitCoef) : ORRow :=
  { term := c.term
    OR := conv c.beta
    OR_low := conv (c.beta - 196 / 100 * c.se)
    OR_high := conv (c.beta + 196 / 100 * c.se)
    pz := pv (c.beta / c.se) }

/-- Modelled from the spec (§6): the `regression` output — the ordered
sequence of odds-ratio rows, one per fitted coefficient. -/
def regressionTable (conv pv : ℚ → ℚ) (coefs : List FitCoef) : List ORRow :=
  coefs.map (orRow conv pv)

/-- `prevalence` unfolded through the accumulator pass. -/
theorem prevalence_eq_ite (ds : List DataRow) (g : Option String) :
    prevalence ds g =
      if weightedDen ds g = 0 then none
      else some (weightedNum ds g / weightedDen ds g) := by
  simp [prevalence, prevAccum_eq_sums]

/-! ## The claims -/

/-- C1: for every dataset and group level, the weighted prevalence is
`Σ(weight·outcome) / Σ(weight)` over the rows whose outcome is present
(and whose group matches when grouped); on the ungrouped 4-row dataset
with outcomes `[1,0,1,0]` and weights `[2,1,1,2]` it is `3/6 = 1/2`. -/
theorem prevalence_weighted_formula :
    (∀ (ds : List DataRow) (g : Option String), weightedDen ds g ≠ 0 →
        prevalence ds g = some (weightedNum ds g / weightedDen ds g))
    ∧ prevalence exampleDS none = some (1 / 2) := by
  constructor
  · intro ds g h
    simp [prevalence, prevAccum_eq_sums, h]
  · norm_num [prevalence, prevAccum, exampleDS, rowIncluded]

/-- C1 witness: the universal part of `prevalence_weighted_formula`
instantiated on the concrete 4-row dataset. -/
theorem prevalence_weighted_formula_witness :
    weightedDen exampleDS none ≠ 0
    ∧ prevalence exampleDS none
        = some (weightedNum exampleDS none / weightedDen exampleDS none) :=
  ⟨by norm_num [weightedDen, exampleDS, rowIncluded],
   prevalence_weighted_formula.1 exampleDS none
     (by norm_num [weightedDen, exampleDS, rowIncluded])⟩

/-- C2: the regression output is an ordered sequence of rows, one per
model term with the intercept first, each row carrying exactly the five
fields (term, odds ratio, CI bounds, p-value); the client stores this
sequence as the result of a regression request. -/
theorem regression_output_shape :
    (∀ (conv pv : ℚ → ℚ) (ts : List String) (beta se : String → ℚ),
        (regressionTable conv pv (glmFit ts beta se)).map ORRow.term = "const" :: ts
        ∧ ∀ row ∈ regressionTable conv pv (glmFit ts beta se),
            row = ⟨row.term, row.OR, row.OR_low, row.OR_high, row.pz⟩)
    ∧ (∀ (s : ClientState) (f : String) (tbl : List ORRow), s.file = some f →
        (finalState s (runLogit s (Outcome.ok (TableField.rows tbl)))).orRows = some tbl) := by
  refine ⟨fun conv pv ts beta se => ⟨?_, ?_⟩, ?_⟩
  · simp [regressionTable, glmFit, glmTerms, orRow, Function.comp_def]
  · intro row _
    rfl
  · intro s f tbl hf
    simp [runLogit, hf, finalState, TableField.orNull]

/-- C2 witness: the client part of `regression_output_shape` instantiated
on a concrete state and a one-row table. -/
theorem regression_output_shape_witness :
    (finalState { initialState with file := some "data.csv" }
        (runLogit { initialState with file := some "data.csv" }
          (Outcome.ok (TableField.rows [⟨"const", 1, 1, 1, 1⟩])))).orRows
      = some [⟨"const", 1, 1, 1, 1⟩] :=
  regression_output_shape.2 { initialState with file := some "data.csv" } "data.csv"
    [⟨"const", 1, 1, 1, 1⟩] rfl

/-- C3: the prevalence output is an ordered sequence of `{group, prev}`
pairs — one per observed group level with a nonzero weighted denominator,
each pairing the label with its weighted proportion — and the client
stores exactly the decoded sequence. -/
theorem prevalence_table_shape :
    (∀ ds : List DataRow,
        (prevalenceTable ds true).map PrevRow.group
          = (observedLevels ds).filter (fun g => weightedDen ds (some g) ≠ 0)
        ∧ ∀ row ∈ prevalenceTable ds true,
            prevalence ds (some row.group) = some row.prev)
    ∧ (∀ (s : ClientState) (f : String) (rows : List PrevRow) (url : String),
        s.file = some f →
        (finalState s (runPrev s (Outcome.ok rows) (Outcome.ok url))).prevRows = some rows) := by
  constructor
  · intro ds
    constructor
    · have key : ∀ l : List String,
          (l.filterMap
              (fun g => (prevalence ds (some g)).map (fun p => PrevRow.mk g p))).map
            PrevRow.group
            = l.filter (fun g => weightedDen ds (some g) ≠ 0) := by
        intro l
        induction l with
        | nil => rfl
        | cons g l ih =>
          rw [List.filterMap_cons]
          by_cases hg : weightedDen ds (some g) = 0
          · rw [prevalence_eq_ite, if_pos hg]
            simpa [hg] using ih
          · rw [prevalence_eq_ite, if_neg hg]
            simpa [hg] using ih
      simpa [prevalenceTable] using key (observedLevels ds)
    · intro row hrow
      simp only [prevalenceTable, if_true] at hrow
      rw [List.mem_filterMap] at hrow
      obtain ⟨g, _, hg⟩ := hrow
      rw [Option.map_eq_some'] at hg
      obtain ⟨p, hp, hmk⟩ := hg
      subst hmk
      exact hp
  · intro s f rows url hf
    simp [runPrev, hf, finalState]

/-- C3 witness: the client part of `prevalence_table_shape` instantiated
on a concrete state and a one-row table. -/
theorem prevalence_table_shape_witness :
    (finalState { initialState with file := some "data.csv" }
        (runPrev { initialState with file := some "data.csv" }
          (Outcome.ok [⟨"overall", 1 / 2⟩]) (Outcome.ok "blob:url"))).prevRows
      = some [⟨"overall", 1 / 2⟩] :=
  prevalence_table_shape.2 { initialState with file := some "data.csv" } "data.csv"
    [⟨"overall", 1 / 2⟩] "blob:url" rfl

/-- C4: with no file selected, each handler returns before doing anything:
no request is issued, no state update is recorded, and the final state —
in particular `prevRows`, `orRows`, `plotUrl` and `busy` — is unchanged. -/
theorem no_file_noop (s : ClientState) (h : s.file = none) :
    (∀ prevResp plotResp,
        (runPrev s prevResp plotResp).requests = []
        ∧ finalState s (runPrev s prevResp plotResp) = s)
    ∧ (∀ resp, (runLogit s resp).requests = [] ∧ finalState s (runLogit s resp) = s)
    ∧ (∀ resp, (runRecode s resp).requests = [] ∧ finalState s (runRecode s resp) = s) := by
  refine ⟨fun prevResp plotResp => ?_, fun resp => ?_, fun resp => ?_⟩ <;>
    simp [runPrev, runLogit, runRecode, h, finalState]

/-- C4 witness: `no_file_noop` on the initial state (no file yet). -/
theorem no_file_noop_witness :
    (runPrev initialState (Outcome.ok []) (Outcome.ok "u")).requests = []
    ∧ finalState initialState (runPrev initialState (Outcome.ok []) (Outcome.ok "u"))
        = initialState :=
  (no_file_noop initialState rfl).1 (Outcome.ok []) (Outcome.ok "u")

/-- C5: the weight-column state starts as `_LLCPWT`, and whenever it is
non-empty every request any handler issues — prevalence, plot, regression,
recode — carries it under the form key `weight_col`. -/
theorem weight_col_default_and_sent :
    initialState.weightCol = "_LLCPWT"
    ∧ (∀ (s : ClientState) (f : String) prevResp plotResp,
        s.file = some f → s.weightCol ≠ "" →
        ∀ req ∈ (runPrev s prevResp plotResp).requests,
          ("weight_col", FormValue.text s.weightCol) ∈ req.body)
    ∧ (∀ (s : ClientState) (f : String) resp,
        s.file = some f → s.weightCol ≠ "" →
        ∀ req ∈ (runLogit s resp).requests,
          ("weight_col", FormValue.text s.weightCol) ∈ req.body)
    ∧ (∀ (s : ClientState) (f : String) resp,
        s.file = some f → s.weightCol ≠ "" →
        ∀ req ∈ (runRecode s resp).requests,
          ("weight_col", FormValue.text s.weightCol) ∈ req.body) := by
  refine ⟨rfl, ?_, ?_, ?_⟩
  · intro s f prevResp plotResp hf hw req hreq
    cases prevResp <;> cases plotResp <;>
      simp only [runPrev, hf, List.mem_singleton, List.mem_cons,
        List.not_mem_nil, or_false] at hreq
    all_goals
      first
        | (subst hreq; simp [prevFormData, plotFormData, appendIf, hw])
        | (rcases hreq with rfl | rfl <;>
            simp [prevFormData, plotFormData, appendIf, hw])
  · intro s f resp hf hw req hreq
    cases resp <;>
      simp only [runLogit, hf, List.mem_singleton] at hreq
    all_goals subst hreq; simp [logitFormData, appendIf, hw]
  · intro s f resp hf hw req hreq
    cases resp <;>
      simp only [runRecode, hf, List.mem_singleton] at hreq
    all_goals subst hreq; simp [recodeFormData, appendIf, hw]

/-- C5 witness: the prevalence request of a concrete state with the
default weight column carries `weight_col = _LLCPWT`. -/
theorem weight_col_default_and_sent_witness :
    ("weight_col", FormValue.text "_LLCPWT") ∈ prevFormData "data.csv" "" "_LLCPWT" :=
  weight_col_default_and_sent.2.1 { initialState with file := some "data.csv" } "data.csv"
    (Outcome.ok []) (Outcome.ok "u") rfl (by decide)
    ⟨"/prevalence", prevFormData "data.csv" "" "_LLCPWT"⟩ (by decide)

/-- C6 counterexample: in a state with a file loaded and a non-empty
grouping column (`age_group`), the recode request the client builds does
not carry the `by` parameter at all, so an optional parameter with a
non-empty current value is not included in every request. -/
theorem optional_params_uniform_cex :
    "age_group" ≠ ""
    ∧ (runRecode { initialState with file := some "data.csv", byVal := "age_group" }
          (Outcome.ok [])).requests
        = [⟨"/recode", [("file", FormValue.file "data.csv"),
                        ("weight_col", FormValue.text "_LLCPWT")]⟩]
    ∧ ("by", FormValue.text "age_group")
        ∉ [("file", FormValue.file "data.csv"),
           ("weight_col", FormValue.text "_LLCPWT")] := by
  refine ⟨by decide, by decide, by decide⟩

/-- C6 amended: every request includes the file; each request includes
exactly the optional parameters its endpoint accepts — `by` and
`weight_col` for prevalence and plot, `covars_csv` and `weight_col` for
regression, `weight_col` only for recode — each included iff its current
value is non-empty, and never carries the parameters of the other
endpoints. -/
theorem optional_params_per_endpoint (f b cv w : String) :
    (("file", FormValue.file f) ∈ prevFormData f b w
      ∧ (("by", FormValue.text b) ∈ prevFormData f b w ↔ b ≠ "")
      ∧ (("weight_col", FormValue.text w) ∈ prevFormData f b w ↔ w ≠ "")
      ∧ ∀ v, ("covars_csv", v) ∉ prevFormData f b w)
    ∧ (("file", FormValue.file f) ∈ plotFormData f b w
      ∧ (("by", FormValue.text b) ∈ plotFormData f b w ↔ b ≠ "")
      ∧ (("weight_col", FormValue.text w) ∈ plotFormData f b w ↔ w ≠ "")
      ∧ ∀ v, ("covars_csv", v) ∉ plotFormData f b w)
    ∧ (("file", FormValue.file f) ∈ logitFormData f cv w
      ∧ (("covars_csv", FormValue.text cv) ∈ logitFormData f cv w ↔ cv ≠ "")
      ∧ (("weight_col", FormValue.text w) ∈ logitFormData f cv w ↔ w ≠ "")
      ∧ ∀ v, ("by", v) ∉ logitFormData f cv w)
    ∧ (("file", FormValue.file f) ∈ recodeFormData f w
      ∧ (("weight_col", FormValue.text w) ∈ recodeFormData f w ↔ w ≠ "")
      ∧ (∀ v, ("by", v) ∉ recodeFormData f w)
      ∧ ∀ v, ("covars_csv", v) ∉ recodeFormData f w) := by
  by_cases hb : b = "" <;> by_cases hcv : cv = "" <;> by_cases hw : w = "" <;>
    simp [prevFormData, plotFormData, logitFormData, recodeFormData, appendIf,
      hb, hcv, hw]

/-- C6 amended witness: `optional_params_per_endpoint` at concrete field
values — the weight column is included in the recode request. -/
theorem optional_params_per_endpoint_witness :
    ("weight_col", FormValue.text "_LLCPWT") ∈ recodeFormData "data.csv" "_LLCPWT" :=
  (optional_params_per_endpoint "data.csv" "age_group" "" "_LLCPWT").2.2.2.2.1.mpr
    (by decide)

/-- C7: within one prevalence run the table is stored before the plot
step runs: after the `/prevalence` response decodes, the rows are the
second recorded state update, and whether the plot step succeeds or
throws, the final state still holds those rows with `busy` cleared. -/
theorem plot_failure_keeps_prev_rows (s : ClientState) (f : String)
    (rows : List PrevRow) (hf : s.file = some f) :
    ∀ plotResp,
      (runPrev s (Outcome.ok rows) plotResp).states[1]?
          = some { s with busy := true, prevRows := some rows }
      ∧ (finalState s (runPrev s (Outcome.ok rows) plotResp)).prevRows = some rows
      ∧ (finalState s (runPrev s (Outcome.ok rows) plotResp)).busy = false := by
  intro plotResp
  cases plotResp <;> simp [runPrev, hf, finalState]

/-- C7 witness: `plot_failure_keeps_prev_rows` with a throwing plot step —
the stored prevalence rows survive. -/
theorem plot_failure_keeps_prev_rows_witness :
    (finalState { initialState with file := some "data.csv" }
        (runPrev { initialState with file := some "data.csv" }
          (Outcome.ok [⟨"overall", 1⟩]) Outcome.thrown)).prevRows
      = some [⟨"overall", 1⟩] :=
  ((plot_failure_keeps_prev_rows { initialState with file := some "data.csv" }
      "data.csv" [⟨"overall", 1⟩] rfl) Outcome.thrown).2.1

/-- C8: recoding is idempotent — when no derived column doubles as a
source column of the rule table, recoding an already-recoded row again
yields the identical value on every column, in particular on all derived
columns. -/
theorem recode_idempotent (rules : List RecodeRule)
    (h : ∀ r ∈ rules, ∀ r' ∈ rules, r.dst ≠ r'.src) (row : Row) (c : String) :
    recode rules (recode rules row) c = recode rules row c := by
  rw [recode_apply_eq rules h (recode rules row) c, recode_apply_eq rules h row c]
  cases hlast : lastRuleFor rules c with
  | none => rfl
  | some r =>
    have hx : r ∈ (rules.filter (fun r' => r'.dst = c)).getLast? := hlast
    obtain ⟨hne, hr_eq⟩ := List.mem_getLast?_eq_getLast hx
    have hrf : r ∈ rules.filter (fun r' => r'.dst = c) := hr_eq ▸ List.getLast_mem hne
    have hmem : r ∈ rules := (List.mem_filter.mp hrf).1
    have hsrc : recode rules row r.src = row r.src :=
      recode_apply_of_not_dst rules row r.src (fun a ha => h a ha r hmem)
    show r.map (recode rules row r.src) = r.map (row r.src)
    rw [hsrc]

/-- C8 witness: `recode_idempotent` on the BRFSS rule table and a concrete
respondent row, checked on the derived column `t2d_binary`. -/
theorem recode_idempotent_witness :
    recode brfssRules (recode brfssRules sampleRow) "t2d_binary"
      = recode brfssRules sampleRow "t2d_binary" :=
  recode_idempotent brfssRules (by decide) sampleRow "t2d_binary"

/-- C9: when a file is present each handler records `busy := true` as its
first state update and, through its `finally` block, finishes with
`busy = false` whatever the outcome of the awaited steps. -/
theorem busy_flag_restored :
    (∀ (s : ClientState) (f : String) prevResp plotResp, s.file = some f →
        (runPrev s prevResp plotResp).states.head? = some { s with busy := true }
        ∧ (finalState s (runPrev s prevResp plotResp)).busy = false)
    ∧ (∀ (s : ClientState) (f : String) resp, s.file = some f →
        (runLogit s resp).states.head? = some { s with busy := true }
        ∧ (finalState s (runLogit s resp)).busy = false)
    ∧ (∀ (s : ClientState) (f : String) resp, s.file = some f →
        (runRecode s resp).states.head? = some { s with busy := true }
        ∧ (finalState s (runRecode s resp)).busy = false) := by
  refine ⟨fun s f prevResp plotResp hf => ?_, fun s f resp hf => ?_,
    fun s f resp hf => ?_⟩
  · cases prevResp <;> cases plotResp <;> simp [runPrev, hf, finalState]
  · cases resp <;> simp [runLogit, hf, finalState]
  · cases resp <;> simp [runRecode, hf, finalState]

/-- C9 witness: `busy_flag_restored` on a concrete recode invocation. -/
theorem busy_flag_restored_witness :
    (runRecode { initialState with file := some "data.csv" } (Outcome.ok [])).states.head?
        = some { initialState with file := some "data.csv", busy := true }
    ∧ (finalState { initialState with file := some "data.csv" }
        (runRecode { initialState with file := some "data.csv" } (Outcome.ok []))).busy
        = false :=
  busy_flag_restored.2.2 { initialState with file := some "data.csv" } "data.csv"
    (Outcome.ok []) rfl

/-- C10: a `/logit` response whose body lacks the `table` field, or holds
a null one, makes the client store `none` (the JS `null`) as the
odds-ratio table, replacing whatever was displayed before. -/
theorem missing_table_yields_null (s : ClientState) (f : String)
    (hf : s.file = some f) :
    (finalState s (runLogit s (Outcome.ok TableField.absent))).orRows = none
    ∧ (finalState s (runLogit s (Outcome.ok TableField.null))).orRows = none := by
  constructor <;> simp [runLogit, hf, finalState, TableField.orNull]

/-- C10 witness: `missing_table_yields_null` on a state that already held
a regression table — the stale table is replaced by `null`. -/
theorem missing_table_yields_null_witness :
    (finalState { initialState with file := some "data.csv", orRows := some [] }
        (runLogit { initialState with file := some "data.csv", orRows := some [] }
          (Outcome.ok TableField.absent))).orRows = none :=
  (missing_table_yields_null
      { initialState with file := some "data.csv", orRows := some [] }
      "data.csv" rfl).1

end BrfssApp
